import Mathlib

/-!
Shallow embedding of the CS 105 OH/recitation scheduling model builder
(`scheduler_ip.ipynb`).  The notebook builds an integer program: binary
block/shift/recitation assignment variables keyed by availability, hard
constraints added per TA and per block/recitation, and a weighted
objective with linearized buddy bonuses.  The definitions below translate
the model-building cells; theorems check the specification's claims
against them.
-/

set_option maxRecDepth 4000

/-- Days of the week, as used by the `weekdays`/`weekend` tuples in the
notebook. -/
inductive Day where
  | Mon | Tue | Wed | Thu | Fri | Sat | Sun
deriving DecidableEq, Repr

/-- Position of a day in the week (Mon = 0, ..., Sun = 6); used to state
that block ids are grouped by day. -/
def dayIdx : Day → Nat
  | .Mon => 0 | .Tue => 1 | .Wed => 2 | .Thu => 3 | .Fri => 4 | .Sat => 5 | .Sun => 6

/-- `weekend = ('Sat', 'Sun')`. -/
def weekend : List Day := [Day.Sat, Day.Sun]

/-- `max_oh_shift_length = 3` (hours). -/
def max_oh_shift_length : Nat := 3

/-- `max_oh_shifts_per_ta = 3`. -/
def max_oh_shifts_per_ta : Nat := 3

/-- `max_recitations_per_ta = 2`. -/
def max_recitations_per_ta : Nat := 2

/-- `recitation_time_commitment = 2` (hours). -/
def recitation_time_commitment : Nat := 2

/-- `grading_time_commitment = 2` (hours). -/
def grading_time_commitment : Nat := 2

/-- `recitation_one_way_buddy_weight = 5`. -/
def recitation_one_way_buddy_weight : Nat := 5

/-- `Block = namedtuple('Block', ['day', 'start', 'end'])`.  The `end`
field is called `stop` here (`end` is a Lean keyword). -/
structure Block where
  day : Day
  start : Nat
  stop : Nat
deriving DecidableEq, Repr

/-- `oh_demand_bounds`: coverage windows
`(day, start, end) ↦ (demand lower bound, demand upper bound)`, in the
notebook's (insertion-ordered) dict order. -/
def oh_demand_bounds : List (Day × Nat × Nat × (Nat × Nat)) :=
  [(Day.Mon, 10, 17, (0, 1)),
   (Day.Mon, 18, 23, (1, 2)),
   (Day.Tue, 10, 15, (1, 1)),
   (Day.Tue, 16, 23, (2, 2)),
   (Day.Wed, 12, 23, (1, 1)),
   (Day.Thu, 12, 20, (0, 1)),
   (Day.Fri, 10, 14, (0, 1)),
   (Day.Sat, 12, 18, (1, 1)),
   (Day.Sun, 12, 21, (1, 1))]

/-- Block universe in id order: for each window `(day, start, end, _)` of
`oh_demand_bounds`, one `Block (day, hour, hour+1)` per
`hour in range(start, end + 1)`; the position in this list is the block id
(`oh_block_ids` / `oh_block_id_to_block` in the notebook). -/
def oh_block_id_to_block : List Block :=
  oh_demand_bounds.flatMap (fun w =>
    (List.range (w.2.2.1 + 1 - w.2.1)).map (fun i => ⟨w.1, w.2.1 + i, w.2.1 + i + 1⟩))

/-- `oh_demand_by_block_id`: demand bound of each block id, parallel to
`oh_block_id_to_block`. -/
def oh_demand_by_block_id : List (Nat × Nat) :=
  oh_demand_bounds.flatMap (fun w =>
    (List.range (w.2.2.1 + 1 - w.2.1)).map (fun _ => w.2.2.2))

/-- Size of the block universe (`len(oh_block_ids)`). -/
def numBlocks : Nat := oh_block_id_to_block.length

/-- `oh_block_id_to_block[i]` (a junk block for out-of-universe ids, which
the notebook never touches since availability arrays have length
`len(oh_block_ids)`). -/
def blockAt (i : Nat) : Block := oh_block_id_to_block.getD i ⟨Day.Mon, 0, 0⟩

/-- One row of the cleaned `availability_df` (merged with
`ta_metadata.csv`): name, hour budget, recitation willingness 0–5,
returning flag, and the three bitsets produced by
`embed_block_schedule` / `embed_recitations` (indexed by block id /
recitation id). -/
structure TA where
  name : String
  min_hours : Int
  max_hours : Int
  recitation_pref : Nat
  returning : Bool
  oh_available : List Bool
  oh_pref_available : List Bool
  recitation_available : List Bool
deriving DecidableEq, Repr

/-- `np.where(bits == 1)[0]`: the ascending list of indices holding
`true`.  Variable creation loops iterate over exactly these indices. -/
def npWhere (l : List Bool) : List Nat :=
  (List.range l.length).filter (fun i => l.getD i false)

/-- Ids of the block-assignment variables created for a TA
(`row_blocks.keys()`): one variable per available block, created by
`for block_id in np.where(availability == 1)[0]`. -/
def ohBlockVarIds (ta : TA) : List Nat := npWhere ta.oh_available

/-- Ids of the recitation-assignment variables created for a TA
(`row_recitations.keys()`). -/
def recVarIds (ta : TA) : List Nat := npWhere ta.recitation_available

/-- Solution decoding for a TA's office-hour blocks: the decoder iterates
over the created variables and keeps those whose solved value rounds to 1
(`ta_var.solution_value() > 0.5`). -/
def decodedOHBlocks (ta : TA) (σ : Nat → Bool) : List Nat :=
  (ohBlockVarIds ta).filter σ


/-- Input validation cell: the notebook asserts that every TA with
`recitation_pref == 0` has an all-zero recitation-availability bitset
(`assert (no_recitation_tas_df['recitation_available'].sum() == 0).all()`). -/
def recitationInvariantOK (roster : List TA) : Bool :=
  roster.all (fun ta => ta.recitation_pref != 0 || ta.recitation_available.all (fun b => !b))

/-- Per-TA count of preferred-but-unavailable blocks.  The notebook cell
`availability_df.apply(lambda row: (row['oh_pref_available'] & ~row['oh_available']).sum(), axis=1)`
computes exactly this for display; it is not asserted on and its value is
discarded. -/
def prefNotAvailCount (ta : TA) : Nat :=
  ((List.range ta.oh_pref_available.length).filter
    (fun i => ta.oh_pref_available.getD i false && !(ta.oh_available.getD i false))).length

/-- The aborting part of the validation cells before model construction,
i.e. the assert cell
`no_recitation_tas_df = availability_df[availability_df['recitation_pref'] == 0]`
`assert (no_recitation_tas_df['recitation_available'].sum() == 0).all()`.
When the selection is nonempty, the object-dtype `.sum()` is the
elementwise sum of the selected bitsets and the assert passes iff every
zero-willingness TA's bitset is all-zero.  When the selection is empty
(no zero-willingness TA at all), `.sum()` is the plain Python int `0`,
`(0 == 0)` is a Python `bool`, and `bool` has no `.all()` — the cell
aborts with an AttributeError before the assert is reached.  The
preferred⊆available computation (`prefNotAvailCount`) is evaluated for
manual inspection only and cannot abort. -/
def dataValidation (roster : List TA) : Except String (List TA) :=
  let no_recitation_tas := roster.filter (fun ta => ta.recitation_pref == 0)
  if no_recitation_tas = [] then
    Except.error "AttributeError: bool object has no attribute all"
  else if no_recitation_tas.all (fun ta => ta.recitation_available.all (fun b => !b)) then
    Except.ok roster
  else
    Except.error "AssertionError"

/-- Roster filter
`availability_df = availability_df[availability_df['max_hours'] > grading_time_commitment]`:
TAs unavailable for anything other than grading are dropped before any
variable or constraint is created. -/
def filterRoster (roster : List TA) : List TA :=
  roster.filter (fun ta => (grading_time_commitment : Int) < ta.max_hours)

/-- Buddy resolution: keep a raw `(requester, requested)` name pair only
when both names occur in the (already filtered) roster, and record the
pair of roster indices (`names.index(...)`). -/
def resolveBuddies (raw : List (String × String)) (roster : List TA) : List (Nat × Nat) :=
  let names := roster.map (fun ta => ta.name)
  raw.filterMap (fun p =>
    if p.1 ∈ names ∧ p.2 ∈ names then
      some (names.indexOf p.1, names.indexOf p.2)
    else none)

/-- One generated shift candidate
(`Shift = namedtuple('Shift', ['var', 'day', 'start', 'end'])`): the
decision variable is identified by the candidate's position in the per-TA
list `row_shifts`; `blocks` records the constituent block ids
`range(block_idx, block_idx + window + 1)` that the generation loop links
the shift variable to. -/
structure ShiftCand where
  day : Day
  start : Nat
  stop : Nat
  blocks : List Nat
deriving DecidableEq, Repr

/-- Shift enumeration for one TA (`row_shifts`), translating the nested
loop: for `window in range(max_oh_shift_length)` and
`block_idx in range(availability.size - window)`, skip when
`start_block.start >= 21 and window < 2` (no short late shifts), and emit
a candidate when `start_block.day == end_block.day` and every block of
the run is available (the slice-sum test
`availability[block_idx:block_idx+window+1].sum() == window + 1`). -/
def genShiftCands (avail : List Bool) : List ShiftCand :=
  (List.range max_oh_shift_length).flatMap (fun window =>
    (List.range (avail.length - window)).filterMap (fun block_idx =>
      let start_block := blockAt block_idx
      let end_block := blockAt (block_idx + window)
      if 21 ≤ start_block.start ∧ window < 2 then none
      else if start_block.day = end_block.day ∧
              (List.range' block_idx (window + 1)).all (fun b => avail.getD b false) then
        some ⟨start_block.day, start_block.start, end_block.stop,
              List.range' block_idx (window + 1)⟩
      else none))

/-- Junk default shift for out-of-range list access. -/
def noShift : ShiftCand := ⟨Day.Mon, 0, 0, []⟩

/-- `block_var_to_shift_vars[block_var]`: the generation loop appends, for
every generated shift and every constituent block, the shift's variable to
the block's covering list; so the covering list of block `b` holds exactly
the indices of the candidates whose `blocks` contain `b`. -/
def coveringShifts (avail : List Bool) (b : Nat) : List Nat :=
  (List.range (genShiftCands avail).length).filter
    (fun i => b ∈ ((genShiftCands avail).getD i noShift).blocks)

/-- Converse implication constraints
`solver.Add(solver.Sum(shift_vars) >= block_var)`, added for every key of
`block_var_to_shift_vars` (every block covered by at least one generated
shift).  `σb`/`σs` give the 0/1 values of the block variables (by block
id) and shift variables (by candidate index). -/
def blockShiftConverse (avail : List Bool) (σb σs : Nat → Bool) : Prop :=
  ∀ b ∈ npWhere avail, coveringShifts avail b ≠ [] →
    (if σb b then 1 else 0) ≤ ((coveringShifts avail b).map (fun i => if σs i then 1 else 0)).sum

instance (avail : List Bool) (σb σs : Nat → Bool) :
    Decidable (blockShiftConverse avail σb σs) := by
  unfold blockShiftConverse; infer_instance

/-- Orphan constraints `solver.Add(orphan_block_var == 0)`, added for
every created block variable not in `block_var_to_shift_vars`. -/
def orphanZero (avail : List Bool) (σb : Nat → Bool) : Prop :=
  ∀ b ∈ npWhere avail, coveringShifts avail b = [] → σb b = false

instance (avail : List Bool) (σb : Nat → Bool) : Decidable (orphanZero avail σb) := by
  unfold orphanZero; infer_instance

/-- Number of TAs assigned to block `bid`
(`solver.Sum(ta_vars.values())` over `oh_blocks[bid]`): the dict
`oh_blocks[bid]` holds an entry for TA `t` exactly when variable creation
saw `availability[bid] == 1` for that TA.  `σ t bid` is the solved value
of TA `t`'s variable for block `bid`. -/
def blockSum (roster : List TA) (σ : Nat → Nat → Bool) (bid : Nat) : Nat :=
  (roster.enum.map (fun p =>
    if p.2.oh_available.getD bid false then (if σ p.1 bid then 1 else 0) else 0)).sum

/-- Per-block demand constraints as actually submitted.  The cell writes
`solver.Add(demand_lb <= solver.Sum(ta_vars.values()) <= demand_ub)`, but
Python evaluates the chain as `(demand_lb <= Sum) and (Sum <= demand_ub)`;
the first leg is a truthy `LinearConstraint` object, so `and` yields the
second leg and `solver.Add` receives only `Sum <= demand_ub` — the lower
demand bound never enters the model. -/
def blockDemandSat (roster : List TA) (σ : Nat → Nat → Bool) : Prop :=
  ∀ bid < oh_demand_by_block_id.length,
    blockSum roster σ bid ≤ (oh_demand_by_block_id.getD bid (0, 0)).2

instance (roster : List TA) (σ : Nat → Nat → Bool) :
    Decidable (blockDemandSat roster σ) := by
  unfold blockDemandSat; infer_instance

/-- Number of recitations assigned to a TA
(`solver.Sum(row_recitations.values())`), given the solved values `σr` of
the TA's recitation variables (by recitation id). -/
def recSum (ta : TA) (σr : Nat → Bool) : Nat :=
  ((recVarIds ta).map (fun r => if σr r then 1 else 0)).sum

/-- Willingness-tier cap constraint:
`threshold = max_recitations_per_ta if recitation_pref >= 4 else 1;`
`solver.Add(solver.Sum(row_recitations.values()) <= threshold)`. -/
def recitationCapOK (ta : TA) (σr : Nat → Bool) : Prop :=
  recSum ta σr ≤ (if 4 ≤ ta.recitation_pref then max_recitations_per_ta else 1)

instance (ta : TA) (σr : Nat → Bool) : Decidable (recitationCapOK ta σr) := by
  unfold recitationCapOK; infer_instance

/-- Weighted weekly commitment of a TA: `commitment_vars` pairs every
office-hour block variable with weight 1 and every recitation variable
with weight `recitation_time_commitment`; `commitment_sum` is
`solver.Sum(v * weight ...)`. -/
def commitmentSum (ta : TA) (σb σr : Nat → Bool) : Int :=
  ((ohBlockVarIds ta).map (fun b => if σb b then (1 : Int) else 0)).sum +
  ((recVarIds ta).map (fun r => if σr r then (recitation_time_commitment : Int) else 0)).sum

/-- Per-TA commitment constraints:
`solver.Add(commitment_sum <= row.max_hours - grading_time_commitment)`
always, and
`solver.Add(commitment_sum >= row.min_hours - grading_time_commitment)`
only under `if row.min_hours > grading_time_commitment`. -/
def commitmentOK (ta : TA) (σb σr : Nat → Bool) : Prop :=
  commitmentSum ta σb σr ≤ ta.max_hours - (grading_time_commitment : Int) ∧
  ((grading_time_commitment : Int) < ta.min_hours →
    ta.min_hours - (grading_time_commitment : Int) ≤ commitmentSum ta σb σr)

instance (ta : TA) (σb σr : Nat → Bool) : Decidable (commitmentOK ta σb σr) := by
  unfold commitmentOK; infer_instance

/-- Buddy linearization constraint as actually submitted.  The cell writes
`solver.Add(requester_var + requester_var - 1 <= buddy_var <= requester_var + requester_var)`;
Python evaluates the chain as `(lhs <= buddy_var) and (buddy_var <= rhs)`,
the first leg is a truthy `LinearConstraint` object, so `solver.Add`
receives only `buddy_var <= requester_var + requester_var` — an upper
bound by twice the *requester's* variable.  (The markdown cell above
documents `x_ij + x_ik - 1 <= y <= x_ij + x_ik` with the two distinct
variables; the code sums `requester_var` with itself and the lower bound
is discarded at runtime.  `requested_var` is bound in the loop's scope
but appears in neither submitted bound, mirrored by the unused
parameter.) -/
def buddyVarBounds (requester_var requested_var buddy_var : Int) : Prop :=
  buddy_var ≤ requester_var + requester_var

instance (r1 r2 b : Int) : Decidable (buddyVarBounds r1 r2 b) := by
  unfold buddyVarBounds; infer_instance


/-! Concrete inputs used by counterexamples and witnesses. -/

/-- Availability bitset over the full block universe marking exactly the
two-hour run Mon 21–23 (block ids 11 and 12). -/
def lateAvail2 : List Bool := (List.range 71).map (fun i => i = 11 ∨ i = 12)

/-- Availability bitset marking exactly the three-hour run Mon 21–24
(block ids 11, 12 and 13). -/
def lateAvail3 : List Bool := (List.range 71).map (fun i => i = 11 ∨ i = 12 ∨ i = 13)

/-- Availability bitset over the full block universe marking exactly
blocks 0 and 1 (Mon 10–12). -/
def availMon2 : List Bool := (List.range 71).map (fun i => i < 2)

/-- A TA available everywhere (for the demand-constraint witness). -/
def allAvailTA : TA :=
  ⟨"A", 0, 100, 0, false, List.replicate 71 true, List.replicate 71 false,
   List.replicate 10 false⟩

/-- Roster of two everywhere-available TAs (for the demand-constraint
counterexample: every block has two created block variables). -/
def demandRoster : List TA := [allAvailTA, { allAvailTA with name := "B" }]

/-- The all-zero assignment: no TA assigned to any block. -/
def zeroSol : Nat → Nat → Bool := fun _ _ => false

/-- A TA violating the preferred⊆available invariant: block 0 is marked
preferred but not available (recitation willingness 1, so the recitation
assert is satisfied). -/
def prefViolTA : TA :=
  ⟨"P", 0, 10, 1, false, List.replicate 71 false,
   true :: List.replicate 70 false, List.replicate 10 false⟩

/-- A zero-willingness TA with all-zero recitation availability. -/
def tier0TA : TA := ⟨"Z", 0, 10, 0, false, [], [], List.replicate 10 false⟩

/-- Roster pairing the preferred-invariant violator with a benign
zero-willingness TA, so the assert cell runs on a nonempty selection and
passes. -/
def prefViolRoster : List TA := [prefViolTA, tier0TA]

/-- Witness TA for the commitment-bound claim (min 1 < grading cost 2). -/
def c8TA : TA := ⟨"C", 1, 5, 0, false, [true], [false], []⟩

/-- Witness TA for the availability-variable claim: available exactly for
block 0 out of the 71-block universe. -/
def c3TA : TA :=
  ⟨"T", 0, 10, 0, false, true :: List.replicate 70 false,
   List.replicate 71 false, []⟩

/-- A TA whose stated maximum (2 hours) does not exceed the grading cost;
dropped by the roster filter. -/
def lowTA : TA := ⟨"Low", 0, 2, 0, false, [], [], []⟩

/-- A TA surviving the roster filter. -/
def okTA : TA := ⟨"Ok", 0, 10, 0, false, [], [], []⟩

/-- Witness roster for the roster-filter claim. -/
def rosterW : List TA := [lowTA, okTA]

/-- Witness raw buddy-request list for the roster-filter claim. -/
def rawBuddiesW : List (String × String) := [("Ok", "Ok")]

/-- Witness block-variable values for the orphan/covering claim: block 0
selected. -/
def wBlockSel : Nat → Bool := fun b => b == 0

/-- Witness shift-variable values for the orphan/covering claim:
candidate 0 selected. -/
def wShiftSel : Nat → Bool := fun i => i == 0

/-! General helper lemmas. -/

theorem ite_none_some {α : Type} {c1 c2 : Prop} [Decidable c1] [Decidable c2]
    {x s : α} :
    (if c1 then none else if c2 then some x else none) = some s ↔
      ¬c1 ∧ c2 ∧ x = s := by
  by_cases h1 : c1 <;> by_cases h2 : c2 <;> simp [h1, h2]

theorem exists_true_of_sum_pos {f : Nat → Bool} {l : List Nat}
    (h : 1 ≤ (l.map (fun i => if f i then 1 else 0)).sum) :
    ∃ i ∈ l, f i = true := by
  induction l with
  | nil => simp at h
  | cons a t ih =>
    by_cases ha : f a
    · exact ⟨a, List.mem_cons_self a t, ha⟩
    · simp only [List.map_cons, List.sum_cons, if_neg ha, zero_add] at h
      obtain ⟨i, hi, hfi⟩ := ih h
      exact ⟨i, List.mem_cons_of_mem a hi, hfi⟩

theorem mem_npWhere {l : List Bool} {b : Nat} :
    b ∈ npWhere l ↔ b < l.length ∧ l.getD b false = true := by
  simp [npWhere, List.mem_filter, List.mem_range]

theorem zeroWill_all_iff (roster : List TA) :
    (roster.filter (fun ta => ta.recitation_pref == 0)).all
        (fun ta => ta.recitation_available.all (fun b => !b)) = true ↔
      recitationInvariantOK roster = true := by
  simp only [recitationInvariantOK, List.all_eq_true, List.mem_filter]
  constructor
  · intro h ta hta
    by_cases h0 : ta.recitation_pref = 0
    · have hmem := h ta ⟨hta, by simp [h0]⟩
      rw [Bool.or_eq_true, List.all_eq_true]
      exact Or.inr hmem
    · simp [h0]
  · rintro h ta ⟨hta, h0⟩
    have h0' : ta.recitation_pref = 0 := by simpa using h0
    have := h ta hta
    simpa [h0'] using this

theorem npWhere_nil_of_all_false {l : List Bool}
    (h : l.all (fun b => !b) = true) : npWhere l = [] := by
  rw [List.eq_nil_iff_forall_not_mem]
  intro b hb
  obtain ⟨hlt, hget⟩ := mem_npWhere.mp hb
  have hmem : l.getD b false ∈ l := by
    rw [List.getD_eq_getElem l false hlt]
    exact List.getElem_mem hlt
  have := List.all_eq_true.mp h _ hmem
  rw [hget] at this
  simp at this

/-! Structure of the shift enumeration. -/

theorem mem_genShiftCands {avail : List Bool} {s : ShiftCand} :
    s ∈ genShiftCands avail ↔
      ∃ window block_idx,
        window < max_oh_shift_length ∧ block_idx < avail.length - window ∧
        ¬(21 ≤ (blockAt block_idx).start ∧ window < 2) ∧
        (blockAt block_idx).day = (blockAt (block_idx + window)).day ∧
        (∀ b ∈ List.range' block_idx (window + 1), avail.getD b false = true) ∧
        s = ⟨(blockAt block_idx).day, (blockAt block_idx).start,
             (blockAt (block_idx + window)).stop, List.range' block_idx (window + 1)⟩ := by
  simp only [genShiftCands, List.mem_flatMap, List.mem_filterMap, List.mem_range,
    ite_none_some, List.all_eq_true]
  constructor
  · rintro ⟨w, hw, bi, hbi, h1, ⟨h2, h3⟩, h4⟩
    exact ⟨w, bi, hw, hbi, h1, h2, fun b hb => by simpa using h3 b hb, h4.symm⟩
  · rintro ⟨w, bi, hw, hbi, h1, h2, h3, h4⟩
    exact ⟨w, hw, bi, hbi, h1, ⟨h2, fun b hb => by simpa using h3 b hb⟩, h4.symm⟩

/-! Facts about the concrete 71-block universe: block `stop` hours, and
blocks grouped by day with consecutive hours within a day. -/

theorem univ_stop : ∀ i < numBlocks, (blockAt i).stop = (blockAt i).start + 1 := by decide

theorem univ_dayMono : ∀ i < numBlocks - 1,
    dayIdx (blockAt i).day ≤ dayIdx (blockAt (i + 1)).day := by decide

theorem univ_sameDayStep : ∀ i < numBlocks - 1,
    (blockAt i).day = (blockAt (i + 1)).day →
    (blockAt (i + 1)).start = (blockAt i).start + 1 := by decide

theorem dayIdx_inj : ∀ d e : Day, dayIdx d = dayIdx e → d = e := by
  intro d e
  cases d <;> cases e <;> simp_all [dayIdx]

theorem dayIdx_mono {i j : Nat} (hij : i ≤ j) (hj : j < numBlocks) :
    dayIdx (blockAt i).day ≤ dayIdx (blockAt j).day := by
  induction j with
  | zero => cases Nat.le_zero.mp hij; exact le_refl _
  | succ k ih =>
    rcases Nat.lt_or_ge i (k + 1) with h | h
    · have hk : k < numBlocks := Nat.lt_of_succ_lt hj
      have h1 := ih (Nat.lt_succ_iff.mp h) hk
      have h2 := univ_dayMono k (by omega)
      omega
    · have : i = k + 1 := le_antisymm hij h
      subst this; exact le_refl _

theorem day_between {i j k : Nat} (h1 : i ≤ j) (h2 : j ≤ k) (hk : k < numBlocks)
    (hday : (blockAt i).day = (blockAt k).day) :
    (blockAt j).day = (blockAt i).day := by
  have m1 := dayIdx_mono h1 (lt_of_le_of_lt h2 hk)
  have m2 := dayIdx_mono h2 hk
  have : dayIdx (blockAt j).day = dayIdx (blockAt i).day := by
    rw [hday] at m1 ⊢; omega
  exact dayIdx_inj _ _ this

theorem start_step {i : Nat} : ∀ w, i + w < numBlocks →
    (blockAt i).day = (blockAt (i + w)).day →
    (blockAt (i + w)).start = (blockAt i).start + w := by
  intro w
  induction w with
  | zero => simp
  | succ v ih =>
    intro hlt hday
    have hv : i + v < numBlocks := by omega
    have hdv : (blockAt (i + v)).day = (blockAt i).day :=
      day_between (Nat.le_add_right i v) (by omega) hlt hday
    have hstep := univ_sameDayStep (i + v) (by
      have : numBlocks = 71 := by decide
      omega)
    have hd2 : (blockAt (i + v)).day = (blockAt (i + v + 1)).day := by
      rw [hdv]
      have e : i + v + 1 = i + (v + 1) := by omega
      rw [e, hday]
    have hiv := ih hv hdv.symm
    have hnext : (blockAt (i + (v + 1))).start = (blockAt (i + v)).start + 1 := by
      have e : i + (v + 1) = i + v + 1 := by omega
      rw [e]; exact hstep hd2
    omega

/-! Claim theorems. -/

/-- C1: evaluation of the submitted buddy constraint at the failing
input.  With requester assigned (1) and requested unassigned (0), both
values 0 and 1 of the binary `buddy_var` satisfy the one constraint the
model holds (`buddy_var ≤ requester_var + requester_var`), and the
positive bonus weight strictly prefers 1, so maximization credits the
buddy bonus although the requested TA is not assigned to the shared slot.
With the requester unassigned (0), `buddy_var = 1` is infeasible and 0 is
feasible even when the requested TA is assigned: the auxiliary variable
tracks the requester's assignment alone, never the conjunction — refuting
the claim. -/
theorem buddy_bound_tracks_requester_only :
    buddyVarBounds 1 0 1 ∧ buddyVarBounds 1 0 0 ∧
    ¬buddyVarBounds 0 1 1 ∧ buddyVarBounds 0 1 0 ∧
    (0 : Int) * recitation_one_way_buddy_weight <
      1 * recitation_one_way_buddy_weight := by
  refine ⟨by decide, by decide, by decide, by decide, by decide⟩

/-- C2 counterexample: blocks 11 and 12 form a two-hour contiguous run of
available blocks on one day starting at hour 21 (≥ the late threshold),
yet the enumeration generates no candidate shift at all for this
availability — refuting the claim that every 2-hour-or-longer late run
yields a candidate. -/
theorem late_two_hour_run_no_candidate :
    lateAvail2.length = numBlocks ∧
    lateAvail2.getD 11 false = true ∧ lateAvail2.getD 12 false = true ∧
    (blockAt 11).day = (blockAt 12).day ∧ (blockAt 11).start = 21 ∧
    (blockAt 12).stop = (blockAt 11).start + 2 ∧
    genShiftCands lateAvail2 = [] := by
  refine ⟨by decide, by decide, by decide, by decide, by decide, by decide, by decide⟩

/-- C2 (amended): a candidate shift starting at or after hour 21 is
generated only when it spans 3 blocks (so one- and two-hour late shifts
are both excluded), and every 3-hour contiguous available run that starts
at or after hour 21 on one day still yields a candidate shift. -/
theorem late_shift_needs_three_hours :
    (∀ (avail : List Bool) (s : ShiftCand), s ∈ genShiftCands avail →
       21 ≤ s.start → s.blocks.length = 3) ∧
    (∀ (avail : List Bool) (b : Nat), avail.length = numBlocks →
       b + 2 < numBlocks →
       avail.getD b false = true → avail.getD (b + 1) false = true →
       avail.getD (b + 2) false = true →
       (blockAt b).day = (blockAt (b + 2)).day →
       21 ≤ (blockAt b).start →
       (⟨(blockAt b).day, (blockAt b).start, (blockAt (b + 2)).stop,
         [b, b + 1, b + 2]⟩ : ShiftCand) ∈ genShiftCands avail) := by
  constructor
  · intro avail s hs hstart
    obtain ⟨w, bi, hw, hbi, h1, hday, hav, rfl⟩ := mem_genShiftCands.mp hs
    simp only at hstart
    have hw2 : 2 ≤ w := by
      by_contra hlt
      exact h1 ⟨hstart, by omega⟩
    have hw3 : w < 3 := hw
    have : w = 2 := by omega
    subst this
    simp [List.length_range']
  · intro avail b hlen hb2 ha0 ha1 ha2 hday hstart
    apply mem_genShiftCands.mpr
    refine ⟨2, b, by decide, by omega, by omega, hday, ?_, ?_⟩
    · intro x hx
      have := List.mem_range'_1.mp hx
      have hx3 : x = b ∨ x = b + 1 ∨ x = b + 2 := by omega
      rcases hx3 with rfl | rfl | rfl <;> assumption
    · have : List.range' b 3 = [b, b + 1, b + 2] := by simp [List.range']
      simp [this]

/-- C2 witness: on the three-hour late run Mon 21–24 (blocks 11–13) the
candidate is generated, and every candidate of this availability starting
at or after 21 spans 3 blocks. -/
theorem late_shift_needs_three_hours_w :
    (⟨Day.Mon, 21, 24, [11, 12, 13]⟩ : ShiftCand) ∈ genShiftCands lateAvail3 ∧
    (∀ s ∈ genShiftCands lateAvail3, 21 ≤ s.start → s.blocks.length = 3) :=
  ⟨late_shift_needs_three_hours.2 lateAvail3 11 (by decide) (by decide) (by decide)
      (by decide) (by decide) (by decide) (by decide),
   fun s hs h21 => late_shift_needs_three_hours.1 lateAvail3 s hs h21⟩

/-- C3: a block-assignment variable exists for a (TA, block) pair iff the
block is in the universe and the TA's availability bitset marks it; and
every decoded block assignment is for an available block. -/
theorem block_var_iff_available (ta : TA) (h : ta.oh_available.length = numBlocks) :
    (∀ b, b ∈ ohBlockVarIds ta ↔
      b < numBlocks ∧ ta.oh_available.getD b false = true) ∧
    (∀ σ b, b ∈ decodedOHBlocks ta σ → ta.oh_available.getD b false = true) := by
  constructor
  · intro b; rw [ohBlockVarIds, mem_npWhere, h]
  · intro σ b hb
    have hv : b ∈ ohBlockVarIds ta := List.mem_of_mem_filter hb
    exact (mem_npWhere.mp hv).2

/-- C3 witness: a TA available exactly for block 0 of the 71-block
universe. -/
theorem block_var_iff_available_w :
    c3TA.oh_available.length = numBlocks ∧
    (0 ∈ ohBlockVarIds c3TA ↔
      0 < numBlocks ∧ c3TA.oh_available.getD 0 false = true) :=
  ⟨by decide, (block_var_iff_available c3TA (by decide)).1 0⟩

/-- C4: under the converse (block ⇒ covering shift) constraints and the
orphan constraints, every created block variable set to 1 has a selected
generated shift containing its block, and every created block variable
covered by zero generated shifts is 0. -/
theorem selected_block_has_selected_shift (avail : List Bool) (σb σs : Nat → Bool)
    (hconv : blockShiftConverse avail σb σs) (horph : orphanZero avail σb) :
    ∀ b ∈ npWhere avail,
      (σb b = true →
        ∃ i, i < (genShiftCands avail).length ∧
          b ∈ ((genShiftCands avail).getD i noShift).blocks ∧ σs i = true) ∧
      (coveringShifts avail b = [] → σb b = false) := by
  intro b hb
  refine ⟨?_, fun hc => horph b hb hc⟩
  intro hσ
  by_cases hc : coveringShifts avail b = []
  · have hfalse := horph b hb hc
    rw [hσ] at hfalse
    cases hfalse
  · have hle : 1 ≤ ((coveringShifts avail b).map (fun i => if σs i then 1 else 0)).sum := by
      simpa [hσ] using hconv b hb hc
    obtain ⟨i, hi, hsi⟩ := exists_true_of_sum_pos hle
    have h2 := List.mem_filter.mp hi
    exact ⟨i, List.mem_range.mp h2.1, of_decide_eq_true h2.2, hsi⟩

/-- C4 witness: one available block ([true]) with its 1-hour candidate
selected. -/
theorem selected_block_has_selected_shift_w :
    blockShiftConverse [true] wBlockSel wShiftSel ∧
    orphanZero [true] wBlockSel ∧
    (∃ i, i < (genShiftCands [true]).length ∧
      0 ∈ ((genShiftCands [true]).getD i noShift).blocks ∧ wShiftSel i = true) :=
  ⟨by decide, by decide,
   (selected_block_has_selected_shift [true] wBlockSel wShiftSel (by decide)
      (by decide) 0 (by decide)).1 (by decide)⟩

/-- C5: the lower demand bound is absent from the constructed model.
With two TAs available for every block (so block variables exist
everywhere), the all-zero assignment satisfies every per-block demand
constraint actually submitted, yet block 8 (Mon 18–19) has configured
demand bound `[1, 2]` and zero assigned TAs — refuting the claim that
both bounds are enforced in every feasible solution. -/
theorem block_demand_lower_bound_not_enforced :
    blockDemandSat demandRoster zeroSol ∧
    (oh_demand_by_block_id.getD 8 (0, 0)).1 = 1 ∧
    blockSum demandRoster zeroSol 8 = 0 := by
  refine ⟨by decide, by decide, by decide⟩

/-- C6 counterexample: `prefViolTA` marks block 0 preferred but not
available (a data-invariant violation); on the roster pairing it with a
benign zero-willingness TA the assert cell runs on a nonempty selection
and passes, so validation completes without aborting — refuting the
claim that every data-invariant violation aborts model construction. -/
theorem pref_violation_not_aborted :
    prefNotAvailCount prefViolTA = 1 ∧
    prefViolTA ∈ prefViolRoster ∧
    dataValidation prefViolRoster = Except.ok prefViolRoster := by
  refine ⟨by decide, by decide, by rfl⟩

/-- C6 (amended): when the roster contains at least one zero-willingness
TA, the assert cell is the only abort: validation succeeds iff every
zero-willingness TA has all-zero recitation availability, regardless of
preferred⊆available violations (whose count is computed for manual
inspection only); when the roster has no zero-willingness TA the cell
aborts unconditionally (AttributeError on the empty selection), not with
a validation error. -/
theorem validation_aborts_iff_recitation_invariant (roster : List TA) :
    (roster.any (fun ta => ta.recitation_pref == 0) = true →
      (dataValidation roster = Except.ok roster ↔
        recitationInvariantOK roster = true)) ∧
    (roster.any (fun ta => ta.recitation_pref == 0) = false →
      ∀ out, dataValidation roster ≠ Except.ok out) := by
  constructor
  · intro hany
    have hne : roster.filter (fun ta => ta.recitation_pref == 0) ≠ [] := by
      obtain ⟨ta, hmem, hp⟩ := List.any_eq_true.mp hany
      intro hemp
      have hmf : ta ∈ roster.filter (fun ta => ta.recitation_pref == 0) :=
        List.mem_filter.mpr ⟨hmem, hp⟩
      rw [hemp] at hmf
      cases hmf
    constructor
    · intro hok
      rw [← zeroWill_all_iff]
      by_contra hall
      have hall' : (roster.filter (fun ta => ta.recitation_pref == 0)).all
          (fun ta => ta.recitation_available.all (fun b => !b)) = false := by
        cases h : (roster.filter (fun ta => ta.recitation_pref == 0)).all
            (fun ta => ta.recitation_available.all (fun b => !b))
        · rfl
        · exact absurd h hall
      simp only [dataValidation, if_neg hne, hall', Bool.false_eq_true,
        if_false] at hok
      cases hok
    · intro hinv
      have hall := (zeroWill_all_iff roster).mpr hinv
      simp only [dataValidation, if_neg hne, hall, if_true]
  · intro hnone out
    have hemp : roster.filter (fun ta => ta.recitation_pref == 0) = [] := by
      rw [List.filter_eq_nil_iff]
      intro ta hta hp
      have : roster.any (fun ta => ta.recitation_pref == 0) = true :=
        List.any_eq_true.mpr ⟨ta, hta, hp⟩
      rw [hnone] at this
      cases this
    simp only [dataValidation, hemp, if_pos]
    intro heq
    cases heq

/-- C6 witness: on the violating roster (which contains a zero-willingness
TA) validation returns the roster; on the singleton roster with no
zero-willingness TA the cell aborts, so no roster is returned. -/
theorem validation_aborts_iff_recitation_invariant_w :
    dataValidation prefViolRoster = Except.ok prefViolRoster ∧
    dataValidation [prefViolTA] ≠ Except.ok [prefViolTA] :=
  ⟨((validation_aborts_iff_recitation_invariant prefViolRoster).1 (by decide)).mpr
      (by decide),
   (validation_aborts_iff_recitation_invariant [prefViolTA]).2 (by decide) [prefViolTA]⟩

/-- C7: given the validated recitation invariant and the willingness-tier
cap constraint, a TA with willingness 0 has no recitation variables (and
hence sum 0), willingness ≥ 4 allows at most `max_recitations_per_ta`
recitations, and willingness 1–3 allows at most one. -/
theorem recitation_willingness_tiers (roster : List TA) (ta : TA) (σr : Nat → Bool)
    (hv : recitationInvariantOK roster = true) (hm : ta ∈ roster)
    (hcap : recitationCapOK ta σr) :
    (ta.recitation_pref = 0 → recVarIds ta = [] ∧ recSum ta σr = 0) ∧
    (4 ≤ ta.recitation_pref → recSum ta σr ≤ max_recitations_per_ta) ∧
    (1 ≤ ta.recitation_pref → ta.recitation_pref ≤ 3 → recSum ta σr ≤ 1) := by
  refine ⟨?_, ?_, ?_⟩
  · intro h0
    have hall := List.all_eq_true.mp hv ta hm
    simp only [h0] at hall
    have hnil : recVarIds ta = [] := npWhere_nil_of_all_false (by simpa using hall)
    exact ⟨hnil, by simp [recSum, hnil]⟩
  · intro h4
    have hc := hcap
    rw [recitationCapOK, if_pos h4] at hc
    exact hc
  · intro h1 h3
    have hlt : ¬4 ≤ ta.recitation_pref := by omega
    have hc := hcap
    rw [recitationCapOK, if_neg hlt] at hc
    exact hc

/-- C7 witness: a willingness-0 TA with an all-zero recitation bitset has
no recitation variables. -/
theorem recitation_willingness_tiers_w :
    recitationInvariantOK [tier0TA] = true ∧
    recitationCapOK tier0TA (fun _ => false) ∧
    (recVarIds tier0TA = [] ∧ recSum tier0TA (fun _ => false) = 0) :=
  ⟨by decide, by decide,
   (recitation_willingness_tiers [tier0TA] tier0TA (fun _ => false) (by decide)
      (by decide) (by decide)).1 (by decide)⟩

/-- C8: under the per-TA commitment constraints, the weighted commitment
sum is at most `max_hours − grading_cost`; it is at least
`min_hours − grading_cost` whenever `min_hours > grading_cost`; and for a
TA with `min_hours ≤ grading_cost` the commitment constraint reduces to
the upper bound alone (no lower floor). -/
theorem commitment_bounds_enforced (ta : TA) (σb σr : Nat → Bool)
    (h : commitmentOK ta σb σr) :
    commitmentSum ta σb σr ≤ ta.max_hours - (grading_time_commitment : Int) ∧
    ((grading_time_commitment : Int) < ta.min_hours →
      ta.min_hours - (grading_time_commitment : Int) ≤ commitmentSum ta σb σr) ∧
    (ta.min_hours ≤ (grading_time_commitment : Int) →
      ∀ σb2 σr2, (commitmentOK ta σb2 σr2 ↔
        commitmentSum ta σb2 σr2 ≤ ta.max_hours - (grading_time_commitment : Int))) := by
  refine ⟨h.1, h.2, ?_⟩
  intro hmin σb2 σr2
  constructor
  · exact fun hh => hh.1
  · intro hu
    exact ⟨hu, fun hlt => absurd hmin (by omega)⟩

/-- C8 witness: TA with `min_hours = 1 ≤ 2 = grading cost` and
`max_hours = 5`; the empty assignment satisfies the commitment
constraints and the upper bound. -/
theorem commitment_bounds_enforced_w :
    commitmentOK c8TA (fun _ => false) (fun _ => false) ∧
    commitmentSum c8TA (fun _ => false) (fun _ => false) ≤
      c8TA.max_hours - (grading_time_commitment : Int) :=
  ⟨by decide,
   (commitment_bounds_enforced c8TA (fun _ => false) (fun _ => false) (by decide)).1⟩

/-- C9: every generated shift candidate spans between 1 and
`max_oh_shift_length` blocks, all of its constituent blocks lie in the
universe on the shift's day and are available for the TA, and the shift's
end hour minus its start hour equals its number of constituent blocks
(the run is contiguous in time). -/
theorem shift_candidates_wellformed (avail : List Bool)
    (h : avail.length = numBlocks) (s : ShiftCand) (hs : s ∈ genShiftCands avail) :
    (1 ≤ s.blocks.length ∧ s.blocks.length ≤ max_oh_shift_length) ∧
    (∀ b ∈ s.blocks,
      b < numBlocks ∧ (blockAt b).day = s.day ∧ avail.getD b false = true) ∧
    s.stop - s.start = s.blocks.length := by
  obtain ⟨w, bi, hw, hbi, h1, hday, hav, rfl⟩ := mem_genShiftCands.mp hs
  rw [h] at hbi
  have hw3 : w < 3 := hw
  have hbw : bi + w < numBlocks := by omega
  have hlen : (List.range' bi (w + 1)).length = w + 1 := List.length_range' ..
  refine ⟨⟨by simp [hlen], by simp [hlen]; omega⟩, ?_, ?_⟩
  · intro b hb
    have hbmem : bi ≤ b ∧ b < bi + (w + 1) := by
      have := List.mem_range'_1.mp hb
      omega
    refine ⟨by omega, ?_, hav b hb⟩
    exact day_between hbmem.1 (by omega) hbw hday
  · have hstop := univ_stop (bi + w) hbw
    have hstart := start_step w hbw hday
    simp only [hlen]
    omega

/-- C9 witness: with blocks 0 and 1 available, the two-hour Mon 10–12
candidate is generated and its end minus start equals its block count. -/
theorem shift_candidates_wellformed_w :
    availMon2.length = numBlocks ∧
    (⟨Day.Mon, 10, 12, [0, 1]⟩ : ShiftCand) ∈ genShiftCands availMon2 ∧
    (⟨Day.Mon, 10, 12, [0, 1]⟩ : ShiftCand).stop -
        (⟨Day.Mon, 10, 12, [0, 1]⟩ : ShiftCand).start =
      (⟨Day.Mon, 10, 12, [0, 1]⟩ : ShiftCand).blocks.length :=
  ⟨by decide, by decide,
   (shift_candidates_wellformed availMon2 (by decide) ⟨Day.Mon, 10, 12, [0, 1]⟩
      (by decide)).2.2⟩

/-- C10: the roster filter removes exactly the TAs whose stated maximum
does not exceed the grading cost, every surviving TA has
`max_hours − grading_cost > 0`, and every resolved buddy pair indexes two
members of the filtered roster (so a removed TA gets no buddy link and,
since all model variables are created from the filtered roster, no
assignments). -/
theorem roster_filter_and_buddies (roster : List TA) (raw : List (String × String)) :
    (∀ ta ∈ roster, ta.max_hours ≤ (grading_time_commitment : Int) →
       ta ∉ filterRoster roster) ∧
    (∀ ta ∈ filterRoster roster, 0 < ta.max_hours - (grading_time_commitment : Int)) ∧
    (∀ p ∈ resolveBuddies raw (filterRoster roster),
       p.1 < (filterRoster roster).length ∧ p.2 < (filterRoster roster).length) := by
  refine ⟨?_, ?_, ?_⟩
  · intro ta _ hle hmem
    simp only [filterRoster, List.mem_filter, decide_eq_true_eq] at hmem
    omega
  · intro ta hmem
    simp only [filterRoster, List.mem_filter, decide_eq_true_eq] at hmem
    omega
  · intro p hp
    simp only [resolveBuddies] at hp
    obtain ⟨q, _, hfq⟩ := List.mem_filterMap.mp hp
    by_cases hc : q.1 ∈ (filterRoster roster).map (fun ta => ta.name) ∧
        q.2 ∈ (filterRoster roster).map (fun ta => ta.name)
    · rw [if_pos hc] at hfq
      obtain rfl := Option.some.inj hfq
      have h1 := List.indexOf_lt_length.mpr hc.1
      have h2 := List.indexOf_lt_length.mpr hc.2
      simp only [List.length_map] at h1 h2
      exact ⟨h1, h2⟩
    · rw [if_neg hc] at hfq
      cases hfq

/-- C10 witness: a roster with one 2-hour-max TA (removed) and one
10-hour-max TA (kept); the self-request of the kept TA resolves to
indices into the filtered roster. -/
theorem roster_filter_and_buddies_w :
    lowTA ∉ filterRoster rosterW ∧
    0 < okTA.max_hours - (grading_time_commitment : Int) ∧
    ((0, 0) ∈ resolveBuddies rawBuddiesW (filterRoster rosterW) ∧
      (0 : Nat) < (filterRoster rosterW).length) :=
  ⟨(roster_filter_and_buddies rosterW rawBuddiesW).1 lowTA (by decide) (by decide),
   (roster_filter_and_buddies rosterW rawBuddiesW).2.1 okTA (by decide),
   by
    refine ⟨by decide, ?_⟩
    exact ((roster_filter_and_buddies rosterW rawBuddiesW).2.2 (0, 0) (by decide)).1⟩
